import Mathlib

/-!
Verification of the rtve-go show-fetching library against its specification.

The development shallowly embeds the orchestration core (`api.FetchShow`,
`api.FetchShowLatest`), the link extractor (`scrape` in scrapper.go together
with the registry patterns of urls.go) and the metadata decoder
(`VideoMetadata.Parse` in video.go).  External collaborators (HTTP transport,
JSON decoding, `time.Parse`) are abstracted as oracle functions collected in
an `Env` record; everything the repository's own code does with their results
is translated literally.

Go `error` values are modelled by the inductive `GoErr`; Go's `==` on error
interface values (pointer identity, which distinguishes the package-level
sentinel errors from every freshly allocated `fmt.Errorf` result) is modelled
by `goErrEq`, and `errors.Is` (which additionally unwraps `%w`-wrapped
errors) by `errorsIs`.
-/

set_option maxHeartbeats 1000000
set_option maxRecDepth 10000

namespace RtveGo

/-- Video link information extracted from a listing page
(struct `VideoInfo` in scrapper.go). -/
structure VideoInfo where
  url : String
  id : String
deriving DecidableEq, Repr

/-- Essential metadata of a video (struct `VideoMetadata` in video.go). -/
structure VideoMetadata where
  uri : String := ""
  htmlUrl : String := ""
  id : String := ""
  longTitle : String := ""
  publicationDate : String := ""
deriving DecidableEq, Repr

/-- One subtitle track (struct `SubtitleItem` in subs.go). -/
structure SubtitleItem where
  src : String
  lang : String
deriving DecidableEq, Repr

/-- Parsed subtitle data for a video (struct `Subtitles` in subs.go). -/
structure Subtitles where
  videoID : String
  items : List SubtitleItem
deriving DecidableEq, Repr

/-- Model of the Go `error` values occurring in this code base: the three
package-level sentinels, `fmt.Errorf("...: %w", err)` wrapping, and any other
error (`errors.New` / `fmt.Errorf` without `%w`), carrying its message. -/
inductive GoErr where
  | pageNotFound
  | forbidden
  | maxVideosReached
  | wrap (msg : String) (inner : GoErr)
  | other (msg : String)
deriving DecidableEq, Repr

/-- The `Error()` string of a modelled Go error (`%w` renders as
`"<msg>: <inner>"`, matching `fmt.Errorf`). -/
def GoErr.message : GoErr → String
  | .pageNotFound => "page not found"
  | .forbidden => "access not allowed"
  | .maxVideosReached => "maximum video count reached"
  | .wrap msg inner => msg ++ ": " ++ inner.message
  | .other msg => msg

/-- Go `==` on error interface values, restricted to the comparisons the code
performs (an error against a package-level sentinel).  Two interface values
are `==` exactly when they are the same allocation, so a sentinel equals
itself and a `fmt.Errorf` result (wrapped or not) never equals a sentinel. -/
def goErrEq : GoErr → GoErr → Bool
  | .pageNotFound, .pageNotFound => true
  | .forbidden, .forbidden => true
  | .maxVideosReached, .maxVideosReached => true
  | _, _ => false

/-- Go `errors.Is(err, target)` for a sentinel `target`: compare with `==`,
then keep unwrapping `%w` wrappers. -/
def errorsIs : GoErr → GoErr → Bool
  | .wrap m inner, target => goErrEq (.wrap m inner) target || errorsIs inner target
  | e, target => goErrEq e target

/-- Complete data for a single video handed to the visitor
(struct `VideoResult` in the api package). -/
structure VideoResult where
  metadata : VideoMetadata
  subtitles : Option Subtitles := none
  subtitlesError : Option GoErr := none
deriving DecidableEq, Repr

/-- Statistics about a fetch operation (struct `FetchStats` in the api
package).  Go's `int` counters start at zero and are only incremented. -/
structure FetchStats where
  videosProcessed : Nat := 0
  errorCount : Nat := 0
  errors : List GoErr := []
  pagesScraped : Nat := 0
deriving DecidableEq, Repr

/-- Model of `stats.ErrorCount++` followed by `stats.Errors = append(stats.Errors, e)`,
the two statements the api package always executes together. -/
def FetchStats.addError (stats : FetchStats) (e : GoErr) : FetchStats :=
  { stats with errorCount := stats.errorCount + 1, errors := stats.errors ++ [e] }

/-- A caller-supplied visitor (`VisitorFunc`).  Go closures may mutate
captured state, so the visitor is modelled as a state transformer returning
the new state and the returned error (`none` for `nil`). -/
def Visitor (σ : Type) := σ → VideoResult → σ × Option GoErr

/-- The external collaborators of one `Scrapper` bound to one show: the HTTP
`get` of the listing page for a page number, the link extraction applied to
the fetched content, the per-video metadata fetcher, the subtitle fetcher,
`time.Parse` with the fixed layout `"02-01-2006 15:04:05"` (timestamps are
modelled as integers ordered like `time.Time`), and the current wall-clock
time (`time.Now()`) as an integer. -/
structure Env where
  getListing : Nat → Except GoErr String
  extractLinks : String → List VideoInfo
  downloadVideoMeta : String → Except GoErr VideoMetadata
  fetchSubtitles : VideoMetadata → Except GoErr Subtitles
  parseDate : String → Except GoErr Int
  now : Int

/-- Model of `Scrapper.ScrapePage` (scrapper.go): fetch the listing page and, on any
fetch error, wrap it as `fmt.Errorf("error downloading HTML: %w", err)`;
otherwise extract the links (`scrape` never returns an error). -/
def ScrapePage (env : Env) (page : Nat) : Except GoErr (List VideoInfo) :=
  match env.getListing page with
  | .error e => .error (.wrap "error downloading HTML" e)
  | .ok content => .ok (env.extractLinks content)

/-- Outcome of the inner per-page video loop of `api.FetchShow`: either the
visitor returned an error (the loop `return`s), or the page completed with
the updated statistics, visitor state, `foundVideosInRange`,
`allVideosBeforeRange` and `videosProcessedThisPage`. -/
inductive PageOutcome (σ : Type) where
  | fatal (stats : FetchStats) (vs : σ) (err : GoErr)
  | ok (stats : FetchStats) (vs : σ) (found : Bool) (allBefore : Bool) (processed : Nat)
deriving DecidableEq, Repr

/-- The inner `for _, videoInfo := range videos` loop of `api.FetchShow`
(part of the api package's FetchShow): metadata fetch and date parse failures
are recorded as non-fatal errors; items dated strictly before the start are
skipped; items dated strictly after the end clear `allVideosBeforeRange` and
are skipped; in-range items set both flags, fetch subtitles (a failure is
recorded and attached to the result), and are handed to the visitor; a
visitor error aborts with statistics accumulated so far. -/
def processVideos (env : Env) (startDate endDate : Int) {σ : Type} (visitor : Visitor σ) :
    List VideoInfo → FetchStats → σ → Bool → Bool → Nat → PageOutcome σ
  | [], stats, vs, found, allBefore, processed => .ok stats vs found allBefore processed
  | v :: rest, stats, vs, found, allBefore, processed =>
    match env.downloadVideoMeta v.id with
    | .error e =>
        processVideos env startDate endDate visitor rest
          (stats.addError (.wrap ("error fetching metadata for video " ++ v.id) e))
          vs found allBefore processed
    | .ok metadata =>
      match env.parseDate metadata.publicationDate with
      | .error e =>
          processVideos env startDate endDate visitor rest
            (stats.addError (.wrap ("error parsing date for video " ++ v.id) e))
            vs found allBefore processed
      | .ok pubDate =>
        if pubDate < startDate then
          processVideos env startDate endDate visitor rest stats vs found allBefore processed
        else if endDate < pubDate then
          processVideos env startDate endDate visitor rest stats vs found false processed
        else
          match env.fetchSubtitles metadata with
          | .error e =>
            let stats1 := stats.addError (.wrap ("error fetching subtitles for video " ++ v.id) e)
            match visitor vs { metadata := metadata, subtitles := none, subtitlesError := some e } with
            | (vs1, some e2) =>
                .fatal stats1 vs1 (.wrap ("visitor function returned error for video " ++ v.id) e2)
            | (vs1, none) =>
                processVideos env startDate endDate visitor rest
                  { stats1 with videosProcessed := stats1.videosProcessed + 1 }
                  vs1 true false (processed + 1)
          | .ok subs =>
            match visitor vs { metadata := metadata, subtitles := some subs, subtitlesError := none } with
            | (vs1, some e2) =>
                .fatal stats vs1 (.wrap ("visitor function returned error for video " ++ v.id) e2)
            | (vs1, none) =>
                processVideos env startDate endDate visitor rest
                  { stats with videosProcessed := stats.videosProcessed + 1 }
                  vs1 true false (processed + 1)

/-- The probe scan of `api.FetchShow`'s one-page lookahead: whether any item
of the probed page parses to a timestamp inside the inclusive range, skipping
items whose metadata fetch or date parse fails. -/
def anyInRangePage (env : Env) (startDate endDate : Int) : List VideoInfo → Bool
  | [] => false
  | v :: rest =>
    match env.downloadVideoMeta v.id with
    | .error _ => anyInRangePage env startDate endDate rest
    | .ok metadata =>
      match env.parseDate metadata.publicationDate with
      | .error _ => anyInRangePage env startDate endDate rest
      | .ok pubDate =>
        if startDate ≤ pubDate ∧ pubDate ≤ endDate then true
        else anyInRangePage env startDate endDate rest

/-- The mutable state of `api.FetchShow`'s page loop. -/
structure LoopState (σ : Type) where
  page : Nat
  foundVideosInRange : Bool
  stats : FetchStats
  vs : σ
deriving DecidableEq, Repr

/-- Result of one iteration of the page loop: the loop `break`s or `return`s
(`done`, carrying the returned statistics, visitor state and terminal error),
or continues with a new state. -/
inductive StepResult (σ : Type) where
  | done (stats : FetchStats) (vs : σ) (err : Option GoErr)
  | next (st : LoopState σ)
deriving DecidableEq, Repr

/-- One iteration of the `for { ... }` page loop of `api.FetchShow`,
translated statement by statement: the error handling of `ScrapePage`
(comparing the error with Go `==` against the sentinels), the
`PagesScraped++`, the empty-page break, the inner video loop, the
`foundVideosInRange && allVideosBeforeRange` break, the one-page lookahead
(`page++`, probe, `break` on probe error/empty/no-in-range, otherwise
`page--`), and the final `page++`. -/
def fetchStep (env : Env) (startDate endDate : Int) {σ : Type} (visitor : Visitor σ)
    (st : LoopState σ) : StepResult σ :=
  match ScrapePage env st.page with
  | .error err =>
    if st.foundVideosInRange && (goErrEq err .pageNotFound || goErrEq err .forbidden) then
      .done st.stats st.vs none
    else if goErrEq err .pageNotFound || goErrEq err .forbidden then
      .done st.stats st.vs none
    else
      .done st.stats st.vs (some (.wrap ("error scraping page " ++ toString st.page) err))
  | .ok videos =>
    if videos.isEmpty then
      .done { st.stats with pagesScraped := st.stats.pagesScraped + 1 } st.vs none
    else
      match processVideos env startDate endDate visitor videos
          { st.stats with pagesScraped := st.stats.pagesScraped + 1 }
          st.vs st.foundVideosInRange true 0 with
      | .fatal stats1 vs1 e => .done stats1 vs1 (some e)
      | .ok stats1 vs1 found allBefore processed =>
        if found && allBefore then
          .done stats1 vs1 none
        else if processed == 0 && found then
          match ScrapePage env (st.page + 1) with
          | .error _ => .done stats1 vs1 none
          | .ok videos2 =>
            if videos2.isEmpty then
              .done stats1 vs1 none
            else if anyInRangePage env startDate endDate videos2 then
              .next { page := st.page + 1, foundVideosInRange := found, stats := stats1, vs := vs1 }
            else
              .done stats1 vs1 none
        else
          .next { page := st.page + 1, foundVideosInRange := found, stats := stats1, vs := vs1 }

/-- Outcome of `api.FetchShow`: validation failure (Go returns `nil`
statistics and an error), normal completion carrying the statistics, final
visitor state and terminal error, or fuel exhaustion of the embedding's
bounded iteration (the Go loop is unbounded). -/
inductive FetchOutcome (σ : Type) where
  | invalid (err : GoErr)
  | finished (stats : FetchStats) (vs : σ) (err : Option GoErr)
  | outOfFuel (st : LoopState σ)
deriving DecidableEq, Repr

/-- The statistics object the Go caller receives: `none` models a `nil`
`*FetchStats`. -/
def FetchOutcome.statsOf {σ : Type} : FetchOutcome σ → Option FetchStats
  | .invalid _ => none
  | .finished stats _ _ => some stats
  | .outOfFuel st => some st.stats

/-- Fuel-bounded iteration of the page loop. -/
def fetchLoop (env : Env) (startDate endDate : Int) {σ : Type} (visitor : Visitor σ) :
    Nat → LoopState σ → FetchOutcome σ
  | 0, st => .outOfFuel st
  | fuel + 1, st =>
    match fetchStep env startDate endDate visitor st with
    | .done stats vs err => .finished stats vs err
    | .next st1 => fetchLoop env startDate endDate visitor fuel st1

/-- Model of `rtve.ListShows()`: the keys of the registry `urlMap` in urls.go (Go map
iteration order is unspecified; only membership is used). -/
def listShows : List String :=
  ["telediario-2", "telediario-1", "telediario-matinal", "informe-semanal"]

/-- Model of `api.FetchShow`: validate the show identifier against the registry and
the date order (both failures return `nil` statistics), then run the page
loop from page 0 with fresh statistics. -/
def FetchShow (env : Env) (showID : String) (startDate endDate : Int) {σ : Type}
    (visitor : Visitor σ) (vs0 : σ) (fuel : Nat) : FetchOutcome σ :=
  if !(listShows.contains showID) then
    .invalid (.other ("invalid show ID: " ++ showID ++ " (use rtve.ListShows() to see available shows)"))
  else if endDate < startDate then
    .invalid (.other "end date is before start date")
  else
    fetchLoop env startDate endDate visitor fuel
      { page := 0, foundVideosInRange := false, stats := {}, vs := vs0 }

/-- Whether `pat` occurs literally at the head of `s`. -/
def startsWithChars : List Char → List Char → Bool
  | [], _ => true
  | _ :: _, [] => false
  | p :: ps, c :: cs => p == c && startsWithChars ps cs

/-- Length (in characters, counting the final slash) consumed by the greedy
tail `.*/` of the registry patterns when matched against `s`: Go's `.` does
not match a newline, so the greedy star runs to the end of the current line
and backtracks to the last `/` there; `none` when no `/` occurs before the
next newline (no match). -/
def greedySlashLen : List Char → Option Nat
  | [] => none
  | c :: cs =>
    if c == '\n' then none
    else
      match greedySlashLen cs with
      | some n => some (n + 1)
      | none => if c == '/' then some 1 else none

/-- Model of `regexp.FindAllString(content, -1)` for the registry patterns of urls.go,
which all have the shape `<literal prefix>.*/` (the escaped dots of the
literal are plain characters): Go regexp semantics scan left to right for the
leftmost match, the greedy `.*` takes the longest extension ending in `/` on
the current line, and successive matches are non-overlapping, resuming after
the previous match.  Recursion is fuelled by the content length (each step
consumes at least one character). -/
def findAllGreedyAux (pat : List Char) : Nat → List Char → List (List Char)
  | 0, _ => []
  | fuel + 1, s =>
    if startsWithChars pat s then
      match greedySlashLen (s.drop pat.length) with
      | some n =>
          (s.take (pat.length + n)) :: findAllGreedyAux pat fuel (s.drop (pat.length + n))
      | none =>
        match s with
        | [] => []
        | _ :: rest => findAllGreedyAux pat fuel rest
    else
      match s with
      | [] => []
      | _ :: rest => findAllGreedyAux pat fuel rest

/-- All matches of a registry pattern `<literal prefix>.*/` in the content. -/
def findAllGreedy (pat s : List Char) : List (List Char) :=
  findAllGreedyAux pat (s.length + 1) s

/-- Model of `strings.Split(s, "/")` on character lists. -/
def splitOnSlash : List Char → List (List Char)
  | [] => [[]]
  | c :: cs =>
    let rest := splitOnSlash cs
    if c == '/' then [] :: rest
    else
      match rest with
      | t :: ts => (c :: t) :: ts
      | [] => [[c]]

/-- Model of `Scrapper.scrape` (scrapper.go): match the show's pattern against the
page content, strip one trailing `/` from each match, deduplicate the links
(a Go `map[string]bool`; its unspecified iteration order is modelled as first
occurrence, and claims about the result are stated set-wise), then take the
last `/`-separated segment of each link as the video identifier. -/
def scrape (pat : List Char) (content : String) : List VideoInfo :=
  let ms := findAllGreedy pat content.data
  let stripped := ms.map (fun l => if l.getLast? == some '/' then l.dropLast else l)
  let unique := stripped.foldl (fun acc l => if acc.contains l then acc else acc ++ [l]) []
  unique.map (fun l =>
    { url := ⟨l⟩, id := ⟨(splitOnSlash l).getLastD []⟩ })

/-- The literal prefix of the registry pattern for `telediario-1` in urls.go:
`https://www\.rtve\.es/play/videos/telediario-1/.*/`. -/
def telediario1Pat : List Char :=
  "https://www.rtve.es/play/videos/telediario-1/".data

/-- Identifier shape demanded by the spec and the repository's regex tests:
6 to 10 decimal digits. -/
def isValidVideoID (s : String) : Bool :=
  6 ≤ s.length && s.length ≤ 10 && s.data.all (fun c => '0' ≤ c && c ≤ '9')

/-- The regression listing-page content of the spec's end-to-end scenario:
the two `telediario-1` links for identifiers 16755959 and 16754110 next to
short numeric attribute values. -/
def regressionPage : String :=
  "<a href=\"https://www.rtve.es/play/videos/telediario-1/15-horas-03-10-25/16755959/\" data-order=\"10\">Video 1</a>\n<a href=\"https://www.rtve.es/play/videos/telediario-1/15-horas-02-10-25/16754110/\" data-id=\"09\">Video 2</a>\n"

/-- The decoded shape of a paginated video-metadata JSON response
(structs `VideoPage` and `VideoResponse` in video.go). -/
structure VideoPage where
  items : List VideoMetadata := []
  number : Int := 0
  size : Int := 0
  offset : Int := 0
  total : Int := 0
  totalPages : Int := 0
  numElements : Int := 0
deriving DecidableEq, Repr

/-- Top-level JSON response (struct `VideoResponse` in video.go). -/
structure VideoResponse where
  page : VideoPage := {}
deriving DecidableEq, Repr

/-- Model of `VideoMetadata.Parse` (video.go).  `json.Unmarshal` is external and
abstracted as `decode` (an error models malformed JSON).  Go mutates the
receiver `*m` only on success, so the function returns the updated receiver
together with the returned error: on a decode failure the error is wrapped
with `%v` (message concatenation, no `%w`), on an empty item list the
descriptive `"no video metadata found"` error is returned, and on success the
receiver becomes the first item. -/
def VideoMetadata.Parse (decode : String → Except GoErr VideoResponse)
    (m : VideoMetadata) (body : String) : VideoMetadata × Option GoErr :=
  match decode body with
  | .error e => (m, some (.other ("error unmarshaling JSON: " ++ e.message)))
  | .ok resp =>
    match resp.page.items with
    | [] => (m, some (.other "no video metadata found"))
    | first :: _ => (first, none)

/-- The Unix timestamp of `time.Date(2000, 1, 1, 0, 0, 0, 0, time.UTC)`, the
start of the wide range used by `FetchShowLatest` and `FetchShowAll`. -/
def start2000 : Int := 946684800

/-- The wrapped visitor built by `api.FetchShowLatest`: when a positive limit
has been reached, return the `ErrMaxVideosReached` sentinel before
incrementing the counter or invoking the real visitor; otherwise increment
and delegate. -/
def wrappedVisitor (maxVideos : Int) {σ : Type} (visitor : Visitor σ) : Visitor (Int × σ) :=
  fun cs result =>
    if maxVideos > 0 ∧ cs.1 ≥ maxVideos then
      (cs, some .maxVideosReached)
    else
      let r := visitor cs.2 result
      ((cs.1 + 1, r.1), r.2)

/-- Model of `api.FetchShowLatest`: run `FetchShow` over the wide range
`[2000-01-01, now+24h]` with the wrapped visitor and counter starting at 0,
then convert an `errors.Is(err, ErrMaxVideosReached)` terminal error into
graceful (`nil`-error) termination. -/
def FetchShowLatest (env : Env) (showID : String) (maxVideos : Int) {σ : Type}
    (visitor : Visitor σ) (vs0 : σ) (fuel : Nat) : FetchOutcome (Int × σ) :=
  match FetchShow env showID start2000 (env.now + 86400) (wrappedVisitor maxVideos visitor) (0, vs0) fuel with
  | .finished stats vs (some e) =>
    if errorsIs e .maxVideosReached then .finished stats vs none
    else .finished stats vs (some e)
  | out => out

/-! Auxiliary definitions used to state and instantiate the claims:
specification-side predicates, instrumented visitors and concrete
environments. -/

/-- A visitor that ignores its input and always continues. -/
def unitVisitor : Visitor Unit := fun u _ => (u, none)

/-- A visitor that counts its invocations and always continues. -/
def countVisitor : Visitor Nat := fun n _ => (n + 1, none)

/-- A visitor that always aborts with the error `"boom"`. -/
def errVisitor : Visitor Unit := fun u _ => (u, some (.other "boom"))

/-- Instrumentation of an arbitrary visitor that additionally logs every
result it is invoked on, so that properties of "all results handed to the
visitor" can be stated. -/
def loggedVisitor {σ : Type} (visitor : Visitor σ) : Visitor (σ × List VideoResult) :=
  fun sl r =>
    let s1 := visitor sl.1 r
    ((s1.1, sl.2 ++ [r]), s1.2)

/-- The specification's in-range predicate on an emitted result: its
metadata's publication date parses and the timestamp lies inside the
inclusive window. -/
def InRangeResult (env : Env) (startDate endDate : Int) (r : VideoResult) : Prop :=
  ∃ d, env.parseDate r.metadata.publicationDate = Except.ok d ∧ startDate ≤ d ∧ d ≤ endDate

/-- Log component of a page outcome under a logged visitor. -/
def pageLog {σ : Type} : PageOutcome (σ × List VideoResult) → List VideoResult
  | .fatal _ vs _ => vs.2
  | .ok _ vs _ _ _ => vs.2

/-- Log component of a step result under a logged visitor. -/
def stepLog {σ : Type} : StepResult (σ × List VideoResult) → List VideoResult
  | .done _ vs _ => vs.2
  | .next st => st.vs.2

/-- Log component of a fetch outcome under a logged visitor. -/
def outcomeLog {σ : Type} : FetchOutcome (σ × List VideoResult) → List VideoResult
  | .invalid _ => []
  | .finished _ vs _ => vs.2
  | .outOfFuel st => st.vs.2

/-- Componentwise order on statistics: every counter of `a` is at most the
corresponding counter of `b` (the error list is compared by length). -/
def statsLe (a b : FetchStats) : Prop :=
  a.videosProcessed ≤ b.videosProcessed ∧ a.errorCount ≤ b.errorCount ∧
    a.errors.length ≤ b.errors.length ∧ a.pagesScraped ≤ b.pagesScraped

/-- An environment whose per-video collaborators always succeed with a
publication date inside the window: the regime of a healthy provider. -/
def UniformInRange (env : Env) (startDate endDate : Int) : Prop :=
  ∀ id, ∃ m d subs, env.downloadVideoMeta id = Except.ok m ∧
    env.parseDate m.publicationDate = Except.ok d ∧ startDate ≤ d ∧ d ≤ endDate ∧
    env.fetchSubtitles m = Except.ok subs

/-- Metadata stub whose publication-date string is the video identifier
itself, letting concrete environments route dates through `parseDate`. -/
def metaFor (vid : String) : VideoMetadata :=
  { uri := vid, htmlUrl := vid, id := vid, longTitle := vid, publicationDate := vid }

/-- The `i`-th stub video of the concrete listing environments. -/
def mkVid (i : Nat) : VideoInfo := { url := "u" ++ toString i, id := "v" ++ toString i }

/-- List of `k` stub videos. -/
def latestVids (k : Nat) : List VideoInfo := (List.range k).map mkVid

/-- A provider with `k` available videos, all dated inside the wide
`FetchShowLatest` range, on page 0; every later listing page answers
HTTP 404 (the `get` helper returns `ErrPageNotFound`). -/
def latestEnv404 (k : Nat) : Env where
  getListing := fun p => if p == 0 then .ok "p0" else .error .pageNotFound
  extractLinks := fun s => if s == "p0" then latestVids k else []
  downloadVideoMeta := fun vid => .ok (metaFor vid)
  fetchSubtitles := fun m => .ok { videoID := m.id, items := [] }
  parseDate := fun _ => .ok 1741986000
  now := 1742000000

/-- Like `latestEnv404`, but pagination past the available videos ends with
pages that contain no links instead of a 404. -/
def latestEnvEmpty (k : Nat) : Env where
  getListing := fun p => if p == 0 then .ok "p0" else .ok "px"
  extractLinks := fun s => if s == "p0" then latestVids k else []
  downloadVideoMeta := fun vid => .ok (metaFor vid)
  fetchSubtitles := fun m => .ok { videoID := m.id, items := [] }
  parseDate := fun _ => .ok 1741986000
  now := 1742000000

/-- A provider whose every listing page answers HTTP 404. -/
def env404 : Env where
  getListing := fun _ => .error .pageNotFound
  extractLinks := fun _ => []
  downloadVideoMeta := fun _ => .error (.other "unused")
  fetchSubtitles := fun _ => .error (.other "unused")
  parseDate := fun _ => .error (.other "unused")
  now := 0

/-- A provider with one page of four videos dated 99, 100, 200 and 201,
exercising both boundaries of the window `[100, 200]`; later pages answer
404. -/
def rangeEnv : Env where
  getListing := fun p => if p == 0 then .ok "p0" else .error .pageNotFound
  extractLinks := fun s =>
    if s == "p0" then [⟨"u/a", "a"⟩, ⟨"u/b", "b"⟩, ⟨"u/c", "c"⟩, ⟨"u/d", "d"⟩] else []
  downloadVideoMeta := fun vid => .ok (metaFor vid)
  fetchSubtitles := fun m => .ok { videoID := m.id, items := [] }
  parseDate := fun s =>
    if s == "a" then .ok 99
    else if s == "b" then .ok 100
    else if s == "c" then .ok 200
    else if s == "d" then .ok 201
    else .error (.other "cannot parse date")
  now := 0

/-- A provider whose page 0 holds a single video dated 99, strictly before
the window `[100, 200]`. -/
def beforeRangeEnv : Env where
  getListing := fun p => if p == 0 then .ok "p0" else .error .pageNotFound
  extractLinks := fun s => if s == "p0" then [⟨"u/a", "a"⟩] else []
  downloadVideoMeta := fun vid => .ok (metaFor vid)
  fetchSubtitles := fun m => .ok { videoID := m.id, items := [] }
  parseDate := fun s => if s == "a" then .ok 99 else .error (.other "cannot parse date")
  now := 0

/-- A decoder stub for the `Parse` witness: one malformed body, one body
decoding to an empty item list, and one body decoding to a single item. -/
def decodeStub : String → Except GoErr VideoResponse :=
  fun s =>
    if s == "bad" then .error (.other "unexpected end of JSON input")
    else if s == "empty" then .ok {}
    else .ok { page := { items := [metaFor "16492499"] } }

/-- A provider whose page 0 holds one video with a failing metadata fetch,
one with an unparseable date, and one in-range video; later pages answer
404. -/
def errEnv : Env where
  getListing := fun p => if p == 0 then .ok "p0" else .error .pageNotFound
  extractLinks := fun s => if s == "p0" then [⟨"u/x", "x"⟩, ⟨"u/y", "y"⟩, ⟨"u/b", "b"⟩] else []
  downloadVideoMeta := fun vid =>
    if vid == "x" then .error (.other "http 500") else .ok (metaFor vid)
  fetchSubtitles := fun m => .ok { videoID := m.id, items := [] }
  parseDate := fun s => if s == "b" then .ok 150 else .error (.other "cannot parse date")
  now := 0

/-- A video all of whose per-video collaborator calls succeed with a
publication date inside the window. -/
def NiceVideo (env : Env) (startDate endDate : Int) (v : VideoInfo) : Prop :=
  ∃ m d subs, env.downloadVideoMeta v.id = Except.ok m ∧
    env.parseDate m.publicationDate = Except.ok d ∧ startDate ≤ d ∧ d ≤ endDate ∧
    env.fetchSubtitles m = Except.ok subs

/-- Statistics component of a page outcome. -/
def PageOutcome.statsOf {σ : Type} : PageOutcome σ → FetchStats
  | .fatal stats _ _ => stats
  | .ok stats _ _ _ _ => stats

/-- Statistics component of a step result. -/
def StepResult.statsOf {σ : Type} : StepResult σ → FetchStats
  | .done stats _ _ => stats
  | .next st => st.stats

/-- The `foundVideosInRange` flag after a completed page (`true` when the
inner loop aborted, where the flag is no longer consulted). -/
def PageOutcome.foundOf {σ : Type} : PageOutcome σ → Bool
  | .fatal _ _ _ => true
  | .ok _ _ found _ _ => found

end RtveGo

namespace RtveGo

/-! Claim theorems. -/

/-- C2 (code bug): a page fetch classified as not-found reaches `FetchShow`
wrapped by `ScrapePage`, so the `==` comparison against the sentinels never
fires and `FetchShow` returns a fatal error with the statistics, instead of
terminating pagination gracefully with a nil error: on a provider whose
page 0 answers 404, the run ends with the wrapped fatal error even though
`errors.Is` still classifies it as not-found, and the `==` comparison the
code performs is false on it. -/
theorem c2_graceful_termination_code_bug :
    (FetchShow env404 "telediario-1" 0 1 unitVisitor () 5 =
      .finished {} ()
        (some (.wrap "error scraping page 0" (.wrap "error downloading HTML" .pageNotFound))))
    ∧ errorsIs (.wrap "error downloading HTML" .pageNotFound) .pageNotFound = true
    ∧ goErrEq (.wrap "error downloading HTML" .pageNotFound) .pageNotFound = false := by
  decide

/-- C5 (code bug): with the registry pattern
`https://www\.rtve\.es/play/videos/telediario-1/.*/` of urls.go, the link
extractor applied to the regression page (two valid `telediario-1` links next
to short numeric attribute values) extracts neither 16755959 nor 16754110,
and produces an identifier that is not 6–10 decimal digits — contradicting
the repository's own regex tests. -/
theorem c5_scrape_code_bug :
    ("16755959" ∉ (scrape telediario1Pat regressionPage).map VideoInfo.id)
    ∧ ("16754110" ∉ (scrape telediario1Pat regressionPage).map VideoInfo.id)
    ∧ ((scrape telediario1Pat regressionPage).map VideoInfo.id).any
        (fun i => !(isValidVideoID i)) = true := by
  decide

/-- C7 counterexample: an invocation of `FetchShow` with an unknown show
identifier returns a `nil` statistics object (Go `return nil, fmt.Errorf(...)`),
refuting the claim that every invocation returns a non-nil statistics
object. -/
theorem c7_nil_stats_counterexample :
    (FetchShow env404 "no-such-show" 0 1 unitVisitor () 1).statsOf = none := by
  decide

/-- C1 counterexample: on a provider with exactly one available video
(at least N = 1 available), `FetchShowLatest` with `maxVideos = 1` invokes
the real visitor once and records one processed video, but returns a non-nil
fatal error, because the 404 that ends pagination is wrapped and escapes the
graceful-termination comparison — refuting the claimed nil error. -/
theorem c1_latest_counterexample :
    FetchShowLatest (latestEnv404 1) "telediario-1" 1 countVisitor 0 3 =
      .finished { videosProcessed := 1, pagesScraped := 1 } (1, 1)
        (some (.wrap "error scraping page 1" (.wrap "error downloading HTML" .pageNotFound))) := by
  decide

/-- C6 counterexample: when the visitor aborts with error `"boom"`, the
terminal error of `FetchShow` is the `%w`-wrapped
`"visitor function returned error for video b"` error, not the visitor's
error itself — refuting verbatim propagation. -/
theorem c6_verbatim_counterexample :
    (FetchShow rangeEnv "telediario-1" 100 200 errVisitor () 5 =
      .finished { pagesScraped := 1 } ()
        (some (.wrap "visitor function returned error for video b" (.other "boom"))))
    ∧ some (GoErr.wrap "visitor function returned error for video b" (.other "boom")) ≠
        some (GoErr.other "boom") := by
  decide

/-- Small-step fact: the two statements recording a non-fatal error keep
`ErrorCount` and `len(Errors)` in agreement. -/
theorem addError_errorCount (stats : FetchStats) (e : GoErr)
    (h : stats.errorCount = stats.errors.length) :
    (stats.addError e).errorCount = (stats.addError e).errors.length := by
  simp [FetchStats.addError, h]

/-- The inner per-page loop preserves agreement of `ErrorCount` with the
length of the `Errors` list. -/
theorem processVideos_errorCount {σ : Type} (env : Env) (sd ed : Int) (vis : Visitor σ)
    (vids : List VideoInfo) :
    ∀ (stats : FetchStats) (vs : σ) (found allBefore : Bool) (processed : Nat),
      stats.errorCount = stats.errors.length →
      (processVideos env sd ed vis vids stats vs found allBefore processed).statsOf.errorCount =
        (processVideos env sd ed vis vids stats vs found allBefore processed).statsOf.errors.length := by
  induction vids with
  | nil =>
    intro stats vs found ab p h
    simpa [processVideos, PageOutcome.statsOf] using h
  | cons v rest ih =>
    intro stats vs found ab p h
    simp only [processVideos]
    split
    · exact ih _ _ _ _ _ (addError_errorCount _ _ h)
    · split
      · exact ih _ _ _ _ _ (addError_errorCount _ _ h)
      · split
        · exact ih _ _ _ _ _ h
        · split
          · exact ih _ _ _ _ _ h
          · split
            · split
              · simpa [PageOutcome.statsOf] using addError_errorCount _ _ h
              · exact ih _ _ _ _ _ (by simp [FetchStats.addError, h])
            · split
              · simpa [PageOutcome.statsOf] using h
              · exact ih _ _ _ _ _ (by simpa using h)


/-- Reflexivity of the componentwise statistics order. -/
theorem statsLe_refl (s : FetchStats) : statsLe s s :=
  ⟨le_refl _, le_refl _, le_refl _, le_refl _⟩

/-- Transitivity of the componentwise statistics order. -/
theorem statsLe_trans {a b c : FetchStats} (h1 : statsLe a b) (h2 : statsLe b c) :
    statsLe a c :=
  ⟨le_trans h1.1 h2.1, le_trans h1.2.1 h2.2.1, le_trans h1.2.2.1 h2.2.2.1,
    le_trans h1.2.2.2 h2.2.2.2⟩

/-- Recording a non-fatal error only increases the statistics. -/
theorem statsLe_addError (s : FetchStats) (e : GoErr) : statsLe s (s.addError e) := by
  refine ⟨le_refl _, by simp [FetchStats.addError], by simp [FetchStats.addError], le_refl _⟩

/-- Incrementing the processed count only increases the statistics. -/
theorem statsLe_incVp (s : FetchStats) :
    statsLe s { s with videosProcessed := s.videosProcessed + 1 } := by
  refine ⟨by simp, le_refl _, le_refl _, le_refl _⟩

/-- The inner per-page loop only ever increases the statistics counters. -/
theorem processVideos_statsLe {σ : Type} (env : Env) (sd ed : Int) (vis : Visitor σ)
    (vids : List VideoInfo) :
    ∀ (stats : FetchStats) (vs : σ) (found allBefore : Bool) (processed : Nat),
      statsLe stats (processVideos env sd ed vis vids stats vs found allBefore processed).statsOf := by
  induction vids with
  | nil =>
    intro stats vs found ab p
    simpa [processVideos, PageOutcome.statsOf] using statsLe_refl stats
  | cons v rest ih =>
    intro stats vs found ab p
    simp only [processVideos]
    split
    · exact statsLe_trans (statsLe_addError _ _) (ih _ _ _ _ _)
    · split
      · exact statsLe_trans (statsLe_addError _ _) (ih _ _ _ _ _)
      · split
        · exact ih _ _ _ _ _
        · split
          · exact ih _ _ _ _ _
          · split
            · split
              · simpa [PageOutcome.statsOf] using statsLe_addError _ _
              · exact statsLe_trans
                  (statsLe_trans (statsLe_addError _ _) (statsLe_incVp _)) (ih _ _ _ _ _)
            · split
              · simpa [PageOutcome.statsOf] using statsLe_refl stats
              · exact statsLe_trans (statsLe_incVp _) (ih _ _ _ _ _)

/-- Once `foundVideosInRange` is set it stays set through the inner loop. -/
theorem processVideos_found_mono {σ : Type} (env : Env) (sd ed : Int) (vis : Visitor σ)
    (vids : List VideoInfo) :
    ∀ (stats : FetchStats) (vs : σ) (allBefore : Bool) (processed : Nat),
      (processVideos env sd ed vis vids stats vs true allBefore processed).foundOf = true := by
  induction vids with
  | nil =>
    intro stats vs ab p
    simp [processVideos, PageOutcome.foundOf]
  | cons v rest ih =>
    intro stats vs ab p
    simp only [processVideos]
    split
    · exact ih _ _ _ _
    · split
      · exact ih _ _ _ _
      · split
        · exact ih _ _ _ _
        · split
          · exact ih _ _ _ _
          · split
            · split
              · simp [PageOutcome.foundOf]
              · exact ih _ _ _ _
            · split
              · simp [PageOutcome.foundOf]
              · exact ih _ _ _ _


/-- Appending an in-range result preserves the log invariant. -/
theorem log_extend {env : Env} {sd ed : Int} {log : List VideoResult} {r0 : VideoResult}
    (hlog : ∀ r ∈ log, InRangeResult env sd ed r) (h0 : InRangeResult env sd ed r0) :
    ∀ r ∈ log ++ [r0], InRangeResult env sd ed r := by
  intro r hr
  rcases List.mem_append.mp hr with h | h
  · exact hlog _ h
  · obtain rfl := List.mem_singleton.mp h
    exact h0

/-- Every result appended to the instrumentation log by the inner loop is in
range: the visitor is invoked only on videos whose parsed publication
timestamp lies inside the inclusive window. -/
theorem processVideos_logInv {σ : Type} (env : Env) (sd ed : Int) (vis : Visitor σ)
    (vids : List VideoInfo) :
    ∀ (stats : FetchStats) (vsl : σ × List VideoResult) (found allBefore : Bool) (processed : Nat),
      (∀ r ∈ vsl.2, InRangeResult env sd ed r) →
      ∀ r ∈ pageLog (processVideos env sd ed (loggedVisitor vis) vids stats vsl found allBefore processed),
        InRangeResult env sd ed r := by
  induction vids with
  | nil =>
    intro stats vsl found ab p hlog
    simpa [processVideos, pageLog] using hlog
  | cons v rest ih =>
    intro stats vsl found ab p hlog
    simp only [processVideos]
    split
    · exact ih _ _ _ _ _ hlog
    · split
      · exact ih _ _ _ _ _ hlog
      · split
        · exact ih _ _ _ _ _ hlog
        · split
          · exact ih _ _ _ _ _ hlog
          · split
            · split
              · rename_i md heqmd xpd pd heqpd h1 h2 xs es heqs xv vs1 e2 heqv
                simp only [loggedVisitor, Prod.mk.injEq] at heqv
                obtain ⟨h3, h4⟩ := heqv
                subst h3
                simpa [pageLog] using
                  log_extend hlog ⟨pd, heqpd, not_lt.mp h1, not_lt.mp h2⟩
              · rename_i md heqmd xpd pd heqpd h1 h2 xs es heqs xv vs1 heqv
                simp only [loggedVisitor, Prod.mk.injEq] at heqv
                obtain ⟨h3, h4⟩ := heqv
                subst h3
                exact ih _ _ _ _ _
                  (log_extend hlog ⟨pd, heqpd, not_lt.mp h1, not_lt.mp h2⟩)
            · split
              · rename_i md heqmd xpd pd heqpd h1 h2 xs subs heqs xv vs1 e2 heqv
                simp only [loggedVisitor, Prod.mk.injEq] at heqv
                obtain ⟨h3, h4⟩ := heqv
                subst h3
                simpa [pageLog] using
                  log_extend hlog ⟨pd, heqpd, not_lt.mp h1, not_lt.mp h2⟩
              · rename_i md heqmd xpd pd heqpd h1 h2 xs subs heqs xv vs1 heqv
                simp only [loggedVisitor, Prod.mk.injEq] at heqv
                obtain ⟨h3, h4⟩ := heqv
                subst h3
                exact ih _ _ _ _ _
                  (log_extend hlog ⟨pd, heqpd, not_lt.mp h1, not_lt.mp h2⟩)


/-- The page-loop step preserves the log invariant: neither the error
handling, nor the empty-page break, nor the lookahead probe invoke the
visitor outside the inner loop. -/
theorem fetchStep_logInv {σ : Type} (env : Env) (sd ed : Int) (vis : Visitor σ)
    (st : LoopState (σ × List VideoResult))
    (hlog : ∀ r ∈ st.vs.2, InRangeResult env sd ed r) :
    ∀ r ∈ stepLog (fetchStep env sd ed (loggedVisitor vis) st), InRangeResult env sd ed r := by
  unfold fetchStep
  split
  · rename_i e heqe
    by_cases h1 : (st.foundVideosInRange && (goErrEq e GoErr.pageNotFound || goErrEq e GoErr.forbidden)) = true
    · rw [if_pos h1]
      simpa [stepLog] using hlog
    · rw [if_neg h1]
      by_cases h2 : (goErrEq e GoErr.pageNotFound || goErrEq e GoErr.forbidden) = true
      · rw [if_pos h2]
        simpa [stepLog] using hlog
      · rw [if_neg h2]
        simpa [stepLog] using hlog
  · rename_i videos heq
    by_cases hemp : videos.isEmpty = true
    · rw [if_pos hemp]
      simpa [stepLog] using hlog
    · rw [if_neg hemp]
      have hp := processVideos_logInv env sd ed vis videos
        { st.stats with pagesScraped := st.stats.pagesScraped + 1 }
        st.vs st.foundVideosInRange true 0 hlog
      cases hproc : processVideos env sd ed (loggedVisitor vis) videos
          { st.stats with pagesScraped := st.stats.pagesScraped + 1 }
          st.vs st.foundVideosInRange true 0 with
      | fatal stats1 vs1 e =>
        rw [hproc] at hp
        simpa [stepLog, pageLog] using hp
      | ok stats1 vs1 found ab prc =>
        rw [hproc] at hp
        cases found <;> cases ab
        · simpa [stepLog, pageLog] using hp
        · simpa [stepLog, pageLog] using hp
        · cases prc with
          | zero =>
            cases hprobe : ScrapePage env (st.page + 1) with
            | error e2 =>
              simpa [stepLog, pageLog] using hp
            | ok videos2 =>
              cases videos2 with
              | nil =>
                simpa [stepLog, pageLog] using hp
              | cons a as =>
                by_cases hair : anyInRangePage env sd ed (a :: as) = true
                · simpa [stepLog, pageLog, hair] using hp
                · simpa [stepLog, pageLog, hair] using hp
          | succ n =>
            simpa [stepLog, pageLog] using hp
        · simpa [stepLog, pageLog] using hp

/-- The page loop preserves the log invariant for any amount of fuel. -/
theorem fetchLoop_logInv {σ : Type} (env : Env) (sd ed : Int) (vis : Visitor σ) :
    ∀ (fuel : Nat) (st : LoopState (σ × List VideoResult)),
      (∀ r ∈ st.vs.2, InRangeResult env sd ed r) →
      ∀ r ∈ outcomeLog (fetchLoop env sd ed (loggedVisitor vis) fuel st),
        InRangeResult env sd ed r := by
  intro fuel
  induction fuel with
  | zero =>
    intro st h
    simpa [fetchLoop, outcomeLog] using h
  | succ n ih =>
    intro st h
    have hs := fetchStep_logInv env sd ed vis st h
    simp only [fetchLoop]
    split
    · rename_i stats vs err heq
      rw [heq] at hs
      simpa [stepLog, outcomeLog] using hs
    · rename_i st1 heq
      rw [heq] at hs
      exact ih st1 (by simpa [stepLog] using hs)

/-- C3: with `end ≥ start`, `FetchShow` hands the visitor only results whose
parsed publication timestamp lies in the inclusive window `[start, end]`
(first conjunct, via the instrumentation log); an item parsed strictly
before the start is skipped with all loop data unchanged, scanning
continuing on the rest of the page (second conjunct); an item parsed
strictly after the end is skipped with `allVideosBeforeRange` cleared
(third conjunct).  A video dated one second before the start or one second
after the end is therefore never emitted. -/
theorem c3_date_range_filter {σ : Type} (env : Env) (showID : String) (sd ed : Int)
    (vis : Visitor σ) (s0 : σ) (fuel : Nat) (stats : FetchStats)
    (sl : σ × List VideoResult) (err : Option GoErr)
    (hse : sd ≤ ed)
    (hrun : FetchShow env showID sd ed (loggedVisitor vis) (s0, []) fuel = .finished stats sl err) :
    (∀ r ∈ sl.2, InRangeResult env sd ed r)
    ∧ (∀ (v : VideoInfo) (rest : List VideoInfo) (stats0 : FetchStats) (vs : σ)
        (found ab : Bool) (prc : Nat) (m : VideoMetadata) (d : Int),
        env.downloadVideoMeta v.id = Except.ok m →
        env.parseDate m.publicationDate = Except.ok d →
        d < sd →
        processVideos env sd ed vis (v :: rest) stats0 vs found ab prc =
          processVideos env sd ed vis rest stats0 vs found ab prc)
    ∧ (∀ (v : VideoInfo) (rest : List VideoInfo) (stats0 : FetchStats) (vs : σ)
        (found ab : Bool) (prc : Nat) (m : VideoMetadata) (d : Int),
        env.downloadVideoMeta v.id = Except.ok m →
        env.parseDate m.publicationDate = Except.ok d →
        ed < d →
        processVideos env sd ed vis (v :: rest) stats0 vs found ab prc =
          processVideos env sd ed vis rest stats0 vs found false prc) := by
  refine ⟨?_, ?_, ?_⟩
  · have hmain : ∀ r ∈ outcomeLog (FetchShow env showID sd ed (loggedVisitor vis) (s0, []) fuel),
        InRangeResult env sd ed r := by
      unfold FetchShow
      split
      · simp [outcomeLog]
      · split
        · simp [outcomeLog]
        · exact fetchLoop_logInv env sd ed vis fuel _ (by simp)
    rw [hrun] at hmain
    simpa [outcomeLog] using hmain
  · intro v rest stats0 vs found ab prc m d hm hd hlt
    simp [processVideos, hm, hd, hlt]
  · intro v rest stats0 vs found ab prc m d hm hd hgt
    have hnlt : ¬ d < sd := by omega
    simp [processVideos, hm, hd, hnlt, hgt, not_lt.mpr (le_of_lt hgt)]


/-- Scraping one more page only increases the statistics. -/
theorem statsLe_incPs (s : FetchStats) :
    statsLe s { s with pagesScraped := s.pagesScraped + 1 } := by
  refine ⟨le_refl _, le_refl _, le_refl _, by simp⟩

/-- The page-loop step preserves agreement of `ErrorCount` with the length of
the `Errors` list. -/
theorem fetchStep_errorCount {σ : Type} (env : Env) (sd ed : Int) (vis : Visitor σ)
    (st : LoopState σ) (h : st.stats.errorCount = st.stats.errors.length) :
    (fetchStep env sd ed vis st).statsOf.errorCount =
      (fetchStep env sd ed vis st).statsOf.errors.length := by
  unfold fetchStep
  split
  · rename_i e heqe
    by_cases h1 : (st.foundVideosInRange && (goErrEq e GoErr.pageNotFound || goErrEq e GoErr.forbidden)) = true
    · rw [if_pos h1]
      simpa [StepResult.statsOf] using h
    · rw [if_neg h1]
      by_cases h2 : (goErrEq e GoErr.pageNotFound || goErrEq e GoErr.forbidden) = true
      · rw [if_pos h2]
        simpa [StepResult.statsOf] using h
      · rw [if_neg h2]
        simpa [StepResult.statsOf] using h
  · rename_i videos heq
    by_cases hemp : videos.isEmpty = true
    · rw [if_pos hemp]
      simpa [StepResult.statsOf] using h
    · rw [if_neg hemp]
      have hp := processVideos_errorCount env sd ed vis videos
        { st.stats with pagesScraped := st.stats.pagesScraped + 1 }
        st.vs st.foundVideosInRange true 0 h
      cases hproc : processVideos env sd ed vis videos
          { st.stats with pagesScraped := st.stats.pagesScraped + 1 }
          st.vs st.foundVideosInRange true 0 with
      | fatal stats1 vs1 e =>
        rw [hproc] at hp
        simpa [StepResult.statsOf, PageOutcome.statsOf] using hp
      | ok stats1 vs1 found ab prc =>
        rw [hproc] at hp
        cases found <;> cases ab
        · simpa [StepResult.statsOf, PageOutcome.statsOf] using hp
        · simpa [StepResult.statsOf, PageOutcome.statsOf] using hp
        · cases prc with
          | zero =>
            cases hprobe : ScrapePage env (st.page + 1) with
            | error e2 =>
              simpa [StepResult.statsOf, PageOutcome.statsOf] using hp
            | ok videos2 =>
              cases videos2 with
              | nil =>
                simpa [StepResult.statsOf, PageOutcome.statsOf] using hp
              | cons a as =>
                by_cases hair : anyInRangePage env sd ed (a :: as) = true
                · simpa [StepResult.statsOf, PageOutcome.statsOf, hair] using hp
                · simpa [StepResult.statsOf, PageOutcome.statsOf, hair] using hp
          | succ n =>
            simpa [StepResult.statsOf, PageOutcome.statsOf] using hp
        · simpa [StepResult.statsOf, PageOutcome.statsOf] using hp

/-- The page-loop step only ever increases the statistics counters. -/
theorem fetchStep_statsLe {σ : Type} (env : Env) (sd ed : Int) (vis : Visitor σ)
    (st : LoopState σ) :
    statsLe st.stats (fetchStep env sd ed vis st).statsOf := by
  unfold fetchStep
  split
  · rename_i e heqe
    by_cases h1 : (st.foundVideosInRange && (goErrEq e GoErr.pageNotFound || goErrEq e GoErr.forbidden)) = true
    · rw [if_pos h1]
      simpa [StepResult.statsOf] using statsLe_refl st.stats
    · rw [if_neg h1]
      by_cases h2 : (goErrEq e GoErr.pageNotFound || goErrEq e GoErr.forbidden) = true
      · rw [if_pos h2]
        simpa [StepResult.statsOf] using statsLe_refl st.stats
      · rw [if_neg h2]
        simpa [StepResult.statsOf] using statsLe_refl st.stats
  · rename_i videos heq
    by_cases hemp : videos.isEmpty = true
    · rw [if_pos hemp]
      simpa [StepResult.statsOf] using statsLe_incPs st.stats
    · rw [if_neg hemp]
      have hp := statsLe_trans (statsLe_incPs st.stats)
        (processVideos_statsLe env sd ed vis videos
          { st.stats with pagesScraped := st.stats.pagesScraped + 1 }
          st.vs st.foundVideosInRange true 0)
      cases hproc : processVideos env sd ed vis videos
          { st.stats with pagesScraped := st.stats.pagesScraped + 1 }
          st.vs st.foundVideosInRange true 0 with
      | fatal stats1 vs1 e =>
        rw [hproc] at hp
        simpa [StepResult.statsOf, PageOutcome.statsOf] using hp
      | ok stats1 vs1 found ab prc =>
        rw [hproc] at hp
        cases found <;> cases ab
        · simpa [StepResult.statsOf, PageOutcome.statsOf] using hp
        · simpa [StepResult.statsOf, PageOutcome.statsOf] using hp
        · cases prc with
          | zero =>
            cases hprobe : ScrapePage env (st.page + 1) with
            | error e2 =>
              simpa [StepResult.statsOf, PageOutcome.statsOf] using hp
            | ok videos2 =>
              cases videos2 with
              | nil =>
                simpa [StepResult.statsOf, PageOutcome.statsOf] using hp
              | cons a as =>
                by_cases hair : anyInRangePage env sd ed (a :: as) = true
                · simpa [StepResult.statsOf, PageOutcome.statsOf, hair] using hp
                · simpa [StepResult.statsOf, PageOutcome.statsOf, hair] using hp
          | succ n =>
            simpa [StepResult.statsOf, PageOutcome.statsOf] using hp
        · simpa [StepResult.statsOf, PageOutcome.statsOf] using hp

/-- The page loop preserves agreement of `ErrorCount` with `len(Errors)`. -/
theorem fetchLoop_errorCount {σ : Type} (env : Env) (sd ed : Int) (vis : Visitor σ) :
    ∀ (fuel : Nat) (st : LoopState σ),
      st.stats.errorCount = st.stats.errors.length →
      ∀ (stats : FetchStats) (vs : σ) (err : Option GoErr),
        fetchLoop env sd ed vis fuel st = .finished stats vs err →
        stats.errorCount = stats.errors.length := by
  intro fuel
  induction fuel with
  | zero =>
    intro st h stats vs err hrun
    simp [fetchLoop] at hrun
  | succ n ih =>
    intro st h stats vs err hrun
    have hs := fetchStep_errorCount env sd ed vis st h
    simp only [fetchLoop] at hrun
    cases hstep : fetchStep env sd ed vis st with
    | done stats2 vs2 err2 =>
      rw [hstep] at hrun hs
      simp only [StepResult.statsOf] at hs
      simp at hrun
      obtain ⟨rfl, rfl, rfl⟩ := hrun
      exact hs
    | next st1 =>
      rw [hstep] at hrun hs
      simp only [StepResult.statsOf] at hs
      simp at hrun
      exact ih st1 hs stats vs err hrun


/-- C10: the invariant `ErrorCount = len(Errors)` holds at every point of a
`FetchShow` run — it is preserved by every page-loop step (second conjunct)
and holds in the statistics object finally returned (first conjunct); each
non-fatal error increments the counter and appends one entry atomically
(`FetchStats.addError`). -/
theorem c10_errorCount_matches_errors {σ : Type} (env : Env) (showID : String) (sd ed : Int)
    (vis : Visitor σ) (vs0 : σ) (fuel : Nat) :
    (∀ (stats : FetchStats) (vs : σ) (err : Option GoErr),
      FetchShow env showID sd ed vis vs0 fuel = .finished stats vs err →
      stats.errorCount = stats.errors.length)
    ∧ (∀ st : LoopState σ, st.stats.errorCount = st.stats.errors.length →
        (fetchStep env sd ed vis st).statsOf.errorCount =
          (fetchStep env sd ed vis st).statsOf.errors.length) := by
  constructor
  · intro stats vs err hrun
    unfold FetchShow at hrun
    split at hrun
    · exact absurd hrun (by simp)
    · split at hrun
      · exact absurd hrun (by simp)
      · exact fetchLoop_errorCount env sd ed vis fuel _ rfl stats vs err hrun
  · intro st h
    exact fetchStep_errorCount env sd ed vis st h



/-- Witness for C10 on a concrete run recording two non-fatal errors (a
metadata fetch failure and a date parse failure). -/
theorem c10_errorCount_matches_errors_witness :
    (FetchShow errEnv "telediario-1" 100 200 unitVisitor () 5 =
      .finished
        { videosProcessed := 1, errorCount := 2,
          errors := [.wrap "error fetching metadata for video x" (.other "http 500"),
                     .wrap "error parsing date for video y" (.other "cannot parse date")],
          pagesScraped := 1 } ()
        (some (.wrap "error scraping page 1" (.wrap "error downloading HTML" .pageNotFound))))
    ∧ (2 : Nat) =
        [GoErr.wrap "error fetching metadata for video x" (.other "http 500"),
         GoErr.wrap "error parsing date for video y" (.other "cannot parse date")].length :=
  ⟨by decide,
    (c10_errorCount_matches_errors errEnv "telediario-1" 100 200 unitVisitor () 5).1
      { videosProcessed := 1, errorCount := 2,
        errors := [.wrap "error fetching metadata for video x" (.other "http 500"),
                   .wrap "error parsing date for video y" (.other "cannot parse date")],
        pagesScraped := 1 } ()
      (some (.wrap "error scraping page 1" (.wrap "error downloading HTML" .pageNotFound)))
      (by decide)⟩

/-- C9 (termination of the page loop): whenever one iteration of the page
loop does not `break`/`return`, it advances the page counter by exactly one —
the lookahead's `page++ ... page--` cancels out and is followed by the final
`page++`; no iteration holds or decrements the counter. -/
theorem c9_page_progress {σ : Type} (env : Env) (sd ed : Int) (vis : Visitor σ)
    (st st1 : LoopState σ) (h : fetchStep env sd ed vis st = .next st1) :
    st1.page = st.page + 1 := by
  unfold fetchStep at h
  repeat' split at h
  all_goals
    first
      | exact StepResult.noConfusion h
      | (injection h with h1; exact h1 ▸ rfl)

/-- Witness for C9: a concrete non-exiting iteration, from page 0 to
page 1. -/
theorem c9_page_progress_witness :
    (fetchStep rangeEnv 100 200 unitVisitor { page := 0, foundVideosInRange := false, stats := {}, vs := () } =
      .next { page := 1, foundVideosInRange := true,
              stats := { videosProcessed := 2, pagesScraped := 1 }, vs := () })
    ∧ ({ page := 1, foundVideosInRange := true,
         stats := { videosProcessed := 2, pagesScraped := 1 }, vs := () } : LoopState Unit).page = 0 + 1 :=
  ⟨by decide,
    c9_page_progress rangeEnv 100 200 unitVisitor
      { page := 0, foundVideosInRange := false, stats := {}, vs := () }
      { page := 1, foundVideosInRange := true,
        stats := { videosProcessed := 2, pagesScraped := 1 }, vs := () } (by decide)⟩

/-- C4: when at least one in-range item has been found before this page and
the page completes with `allVideosBeforeRange` still set, the loop stops
right after the page: the step is `done` with the accumulated statistics and
a nil error (no probe, no further page through the main loop), and the whole
remaining loop finishes likewise. -/
theorem c4_all_before_range_stops {σ : Type} (env : Env) (sd ed : Int) (vis : Visitor σ)
    (st : LoopState σ) (videos : List VideoInfo) (stats1 : FetchStats) (vs1 : σ)
    (f ab : Bool) (n fuel : Nat)
    (hfound : st.foundVideosInRange = true)
    (hpage : ScrapePage env st.page = Except.ok videos)
    (hne : videos ≠ [])
    (hproc : processVideos env sd ed vis videos
        { st.stats with pagesScraped := st.stats.pagesScraped + 1 }
        st.vs st.foundVideosInRange true 0 = .ok stats1 vs1 f ab n)
    (hab : ab = true) :
    fetchStep env sd ed vis st = .done stats1 vs1 none
    ∧ fetchLoop env sd ed vis (fuel + 1) st = .finished stats1 vs1 none := by
  subst hab
  rw [hfound] at hproc
  have hf : f = true := by
    have hm := processVideos_found_mono env sd ed vis videos
      { st.stats with pagesScraped := st.stats.pagesScraped + 1 } st.vs true 0
    rw [hproc] at hm
    simpa [PageOutcome.foundOf] using hm
  subst hf
  have hstep : fetchStep env sd ed vis st = .done stats1 vs1 none := by
    cases videos with
    | nil => exact absurd rfl hne
    | cons a as =>
      simp [fetchStep, hpage, hfound, hproc]
  exact ⟨hstep, by simp [fetchLoop, hstep]⟩

/-- Witness for C4: a page whose single item is dated strictly before the
window, reached with `foundVideosInRange` already set, makes the loop stop
with a nil error. -/
theorem c4_all_before_range_stops_witness :
    fetchStep beforeRangeEnv 100 200 unitVisitor
        { page := 0, foundVideosInRange := true, stats := {}, vs := () } =
      .done { pagesScraped := 1 } () none :=
  (c4_all_before_range_stops beforeRangeEnv 100 200 unitVisitor
    { page := 0, foundVideosInRange := true, stats := {}, vs := () }
    [⟨"u/a", "a"⟩] { pagesScraped := 1 } () true true 0 0
    rfl rfl (by decide) (by decide) rfl).1

/-- Witness for C3 at the boundary environment: the video dated 100 (the
start boundary) is emitted and provably in range; the theorem's hypotheses
are discharged by evaluating the concrete run, whose log contains exactly
the videos dated 100 and 200 (those dated 99 and 201 are excluded). -/
theorem c3_date_range_filter_witness :
    InRangeResult rangeEnv 100 200
      { metadata := metaFor "b", subtitles := some { videoID := "b", items := [] } } :=
  ((c3_date_range_filter rangeEnv "telediario-1" 100 200 unitVisitor () 5
    { videosProcessed := 2, pagesScraped := 1 }
    ((), [ { metadata := metaFor "b", subtitles := some { videoID := "b", items := [] } },
           { metadata := metaFor "c", subtitles := some { videoID := "c", items := [] } } ])
    (some (.wrap "error scraping page 1" (.wrap "error downloading HTML" .pageNotFound)))
    (by decide) (by decide)).1)
    _ (by simp)


/-- A fatal inner-loop outcome is propagated by the step as the terminal
`done` with the same statistics, visitor state and error. -/
theorem fetchStep_fatal_of {σ : Type} (env : Env) (sd ed : Int) (vis : Visitor σ)
    (st : LoopState σ) (videos : List VideoInfo) (stats1 : FetchStats) (vs1 : σ) (e : GoErr)
    (hpage : ScrapePage env st.page = Except.ok videos)
    (hne : videos ≠ [])
    (hfatal : processVideos env sd ed vis videos
        { st.stats with pagesScraped := st.stats.pagesScraped + 1 }
        st.vs st.foundVideosInRange true 0 = .fatal stats1 vs1 e) :
    fetchStep env sd ed vis st = .done stats1 vs1 (some e) := by
  cases videos with
  | nil => exact absurd rfl hne
  | cons a as => simp [fetchStep, hpage, hfatal]

/-- A page that completed with in-range items processed advances the loop to
the next page. -/
theorem fetchStep_next_of {σ : Type} (env : Env) (sd ed : Int) (vis : Visitor σ)
    (st : LoopState σ) (videos : List VideoInfo) (stats1 : FetchStats) (vs1 : σ) (prc : Nat)
    (hpage : ScrapePage env st.page = Except.ok videos)
    (hne : videos ≠ [])
    (hproc : processVideos env sd ed vis videos
        { st.stats with pagesScraped := st.stats.pagesScraped + 1 }
        st.vs st.foundVideosInRange true 0 = .ok stats1 vs1 true false prc)
    (hprc : prc ≠ 0) :
    fetchStep env sd ed vis st =
      .next { page := st.page + 1, foundVideosInRange := true, stats := stats1, vs := vs1 } := by
  cases videos with
  | nil => exact absurd rfl hne
  | cons a as => simp [fetchStep, hpage, hproc, hprc]

/-- An empty page ends the loop gracefully (after counting the page). -/
theorem fetchStep_empty_of {σ : Type} (env : Env) (sd ed : Int) (vis : Visitor σ)
    (st : LoopState σ)
    (hpage : ScrapePage env st.page = Except.ok []) :
    fetchStep env sd ed vis st =
      .done { st.stats with pagesScraped := st.stats.pagesScraped + 1 } st.vs none := by
  simp [fetchStep, hpage]

/-- Unfolding one `done` iteration of the fuelled loop. -/
theorem fetchLoop_done {σ : Type} (env : Env) (sd ed : Int) (vis : Visitor σ)
    (fuel : Nat) (st : LoopState σ) (stats : FetchStats) (vs : σ) (err : Option GoErr)
    (h : fetchStep env sd ed vis st = .done stats vs err) :
    fetchLoop env sd ed vis (fuel + 1) st = .finished stats vs err := by
  simp [fetchLoop, h]

/-- Unfolding one `next` iteration of the fuelled loop. -/
theorem fetchLoop_next {σ : Type} (env : Env) (sd ed : Int) (vis : Visitor σ)
    (fuel : Nat) (st st1 : LoopState σ)
    (h : fetchStep env sd ed vis st = .next st1) :
    fetchLoop env sd ed vis (fuel + 1) st = fetchLoop env sd ed vis fuel st1 := by
  simp [fetchLoop, h]

/-- After successful validation, `FetchShow` is the page loop started at
page 0 with fresh statistics. -/
theorem FetchShow_run {σ : Type} (env : Env) (showID : String) (sd ed : Int)
    (vis : Visitor σ) (vs0 : σ) (fuel : Nat)
    (hshow : listShows.contains showID = true) (hdate : ¬ ed < sd) :
    FetchShow env showID sd ed vis vs0 fuel =
      fetchLoop env sd ed vis fuel
        { page := 0, foundVideosInRange := false, stats := {}, vs := vs0 } := by
  unfold FetchShow
  rw [if_neg (by rw [hshow]; simp), if_neg hdate]

/-- Fact that `errors.Is` recognises the limit sentinel through one `%w` wrapper. -/
theorem errorsIs_wrap_sentinel (msg : String) :
    errorsIs (.wrap msg .maxVideosReached) .maxVideosReached = true := by
  simp [errorsIs, goErrEq]

/-- Fact that `FetchShowLatest` converts a terminal error recognised as the limit
sentinel into graceful termination. -/
theorem FetchShowLatest_eq {σ : Type} (env : Env) (showID : String) (maxV : Int)
    (vis : Visitor σ) (vs0 : σ) (fuel : Nat) (stats : FetchStats) (vs : Int × σ) (e : GoErr)
    (h : FetchShow env showID start2000 (env.now + 86400) (wrappedVisitor maxV vis) (0, vs0) fuel =
      .finished stats vs (some e))
    (he : errorsIs e .maxVideosReached = true) :
    FetchShowLatest env showID maxV vis vs0 fuel = .finished stats vs none := by
  unfold FetchShowLatest
  rw [h]
  simp [he]

/-- Fact that `FetchShowLatest` passes a nil-error completion through unchanged. -/
theorem FetchShowLatest_none {σ : Type} (env : Env) (showID : String) (maxV : Int)
    (vis : Visitor σ) (vs0 : σ) (fuel : Nat) (stats : FetchStats) (vs : Int × σ)
    (h : FetchShow env showID start2000 (env.now + 86400) (wrappedVisitor maxV vis) (0, vs0) fuel =
      .finished stats vs none) :
    FetchShowLatest env showID maxV vis vs0 fuel = .finished stats vs none := by
  unfold FetchShowLatest
  rw [h]

/-- Length of `latestVids k` is `k`. -/
theorem latestVids_length (k : Nat) : (latestVids k).length = k := by
  simp [latestVids]

/-- Nonemptiness of `latestVids k` for positive `k`. -/
theorem latestVids_ne_nil (k : Nat) (hk : 0 < k) : latestVids k ≠ [] := by
  intro h
  have := latestVids_length k
  rw [h] at this
  simp at this
  omega

/-- Every stub video is nice in the 404-terminated latest environment. -/
theorem latestVids404_nice (k : Nat) :
    ∀ v ∈ latestVids k,
      NiceVideo (latestEnv404 k) start2000 ((latestEnv404 k).now + 86400) v := by
  intro v hv
  exact ⟨metaFor v.id, 1741986000, { videoID := v.id, items := [] },
    rfl, rfl, by decide, (by decide : (1741986000 : Int) ≤ 1742000000 + 86400), rfl⟩

/-- Every stub video is nice in the empty-page-terminated latest
environment. -/
theorem latestVidsEmpty_nice (k : Nat) :
    ∀ v ∈ latestVids k,
      NiceVideo (latestEnvEmpty k) start2000 ((latestEnvEmpty k).now + 86400) v := by
  intro v hv
  exact ⟨metaFor v.id, 1741986000, { videoID := v.id, items := [] },
    rfl, rfl, by decide, (by decide : (1741986000 : Int) ≤ 1742000000 + 86400), rfl⟩


/-- Congruence helper for completed-page outcomes. -/
theorem pageOutcome_ok_eq {σ : Type} {s1 s2 : FetchStats} {v1 v2 : σ} {f1 f2 a1 a2 : Bool}
    {n1 n2 : Nat} (hs : s1 = s2) (hv : v1 = v2) (hf : f1 = f2) (ha : a1 = a2) (hn : n1 = n2) :
    (PageOutcome.ok s1 v1 f1 a1 n1 : PageOutcome σ) = .ok s2 v2 f2 a2 n2 := by
  subst hs hv hf ha hn
  rfl

/-- Extensionality of statistics records. -/
theorem fetchStats_ext {a b : FetchStats}
    (h1 : a.videosProcessed = b.videosProcessed) (h2 : a.errorCount = b.errorCount)
    (h3 : a.errors = b.errors) (h4 : a.pagesScraped = b.pagesScraped) : a = b := by
  cases a
  cases b
  simp_all

/-- Inner loop under the wrapped counting visitor, below the limit: when the
limit is non-positive (unlimited) or the whole page still fits under it,
every nice video is processed, the wrapped counter and real-visitor counter
advance in lockstep with `VideosProcessed`, and no sentinel is raised. -/
theorem processVideos_wrapped_count_all (env : Env) (sd ed : Int) (maxN : Int)
    (vids : List VideoInfo) :
    ∀ (stats : FetchStats) (c : Int) (r : Nat) (found ab : Bool) (p : Nat),
      (∀ v ∈ vids, NiceVideo env sd ed v) →
      (maxN ≤ 0 ∨ c + vids.length ≤ maxN) →
      processVideos env sd ed (wrappedVisitor maxN countVisitor) vids stats (c, r) found ab p =
        .ok { stats with videosProcessed := stats.videosProcessed + vids.length }
          (c + vids.length, r + vids.length)
          (found || !vids.isEmpty) (ab && vids.isEmpty) (p + vids.length) := by
  induction vids with
  | nil =>
    intro stats c r found ab p hnice hc
    simp [processVideos]
  | cons v rest ih =>
    intro stats c r found ab p hnice hc
    obtain ⟨m, d, subs, hm, hd, h1, h2, hs⟩ := hnice v (by simp)
    have hn1 : ¬ d < sd := not_lt.mpr h1
    have hn2 : ¬ ed < d := not_lt.mpr h2
    have hno : ¬(maxN > 0 ∧ (c : Int) ≥ maxN) := by
      rcases hc with h | h
      · omega
      · simp only [List.length_cons] at h
        push_cast at h
        omega
    have hc2 : maxN ≤ 0 ∨ (c + 1) + (rest.length : Int) ≤ maxN := by
      rcases hc with h | h
      · exact Or.inl h
      · refine Or.inr ?_
        simp only [List.length_cons] at h
        push_cast at h
        omega
    simp only [processVideos, hm, hd, hn1, hn2, hs, wrappedVisitor, countVisitor, hno,
      if_false, ite_false]
    rw [ih { stats with videosProcessed := stats.videosProcessed + 1 } (c + 1) (r + 1)
      true false (p + 1) (fun w hw => hnice w (List.mem_cons_of_mem _ hw)) hc2]
    refine pageOutcome_ok_eq ?_ ?_ ?_ ?_ ?_
    · refine fetchStats_ext ?_ rfl rfl rfl
      simp
      omega
    · simp [Prod.ext_iff]
      constructor
      · omega
      · omega
    · simp
    · simp
    · simp
      omega


/-- Congruence helper for aborted-page outcomes. -/
theorem pageOutcome_fatal_eq {σ : Type} {s1 s2 : FetchStats} {v1 v2 : σ} {e1 e2 : GoErr}
    (hs : s1 = s2) (hv : v1 = v2) (he : e1 = e2) :
    (PageOutcome.fatal s1 v1 e1 : PageOutcome σ) = .fatal s2 v2 e2 := by
  subst hs hv he
  rfl

/-- Inner loop under the wrapped counting visitor, crossing the limit: with a
positive limit that the page would exceed, the loop processes videos until
the wrapped counter reaches the limit and then aborts with the wrapped
`ErrMaxVideosReached` sentinel, before invoking the real visitor again:
exactly `maxN - c` further videos are processed. -/
theorem processVideos_wrapped_count_limit (env : Env) (sd ed : Int) (maxN : Int)
    (vids : List VideoInfo) :
    ∀ (stats : FetchStats) (c : Int) (r : Nat) (found ab : Bool) (p : Nat),
      (∀ v ∈ vids, NiceVideo env sd ed v) →
      0 < maxN → c ≤ maxN → maxN < c + vids.length →
      ∃ vid : String,
        processVideos env sd ed (wrappedVisitor maxN countVisitor) vids stats (c, r) found ab p =
          .fatal { stats with videosProcessed := stats.videosProcessed + (maxN - c).toNat }
            (maxN, r + (maxN - c).toNat)
            (.wrap ("visitor function returned error for video " ++ vid) .maxVideosReached) := by
  induction vids with
  | nil =>
    intro stats c r found ab p hnice hpos hcle hlt
    simp only [List.length_nil] at hlt
    omega
  | cons v rest ih =>
    intro stats c r found ab p hnice hpos hcle hlt
    obtain ⟨m, d, subs, hm, hd, h1, h2, hs⟩ := hnice v (by simp)
    have hn1 : ¬ d < sd := not_lt.mpr h1
    have hn2 : ¬ ed < d := not_lt.mpr h2
    by_cases hceq : c = maxN
    · refine ⟨v.id, ?_⟩
      have hyes : maxN > 0 ∧ (c : Int) ≥ maxN := ⟨hpos, ge_of_eq hceq⟩
      simp only [processVideos, hm, hd, hn1, hn2, hs, wrappedVisitor]
      rw [if_pos hyes]
      exact pageOutcome_fatal_eq
        (fetchStats_ext (by simp [hceq]) rfl rfl rfl)
        (by simp [Prod.ext_iff, hceq]) rfl
    · have hclt : (c : Int) < maxN := lt_of_le_of_ne hcle hceq
      have hno : ¬(maxN > 0 ∧ (c : Int) ≥ maxN) := by omega
      obtain ⟨vid, hvid⟩ := ih { stats with videosProcessed := stats.videosProcessed + 1 }
        (c + 1) (r + 1) true false (p + 1)
        (fun w hw => hnice w (List.mem_cons_of_mem _ hw)) hpos (by omega)
        (by simp only [List.length_cons] at hlt; push_cast at hlt ⊢; omega)
      refine ⟨vid, ?_⟩
      simp only [processVideos, hm, hd, hn1, hn2, hs, wrappedVisitor, countVisitor, hno,
        if_false, ite_false]
      rw [hvid]
      refine pageOutcome_fatal_eq ?_ ?_ rfl
      · refine fetchStats_ext ?_ rfl rfl rfl
        simp
        omega
      · simp [Prod.ext_iff]
        omega


/-- Congruence helper for finished fetch outcomes. -/
theorem fetchOutcome_finished_eq {σ : Type} {s1 s2 : FetchStats} {v1 v2 : σ}
    {e1 e2 : Option GoErr} (hs : s1 = s2) (hv : v1 = v2) (he : e1 = e2) :
    (FetchOutcome.finished s1 v1 e1 : FetchOutcome σ) = .finished s2 v2 e2 := by
  subst hs hv he
  rfl

/-- Computed emptiness flag of `latestVids k` is `false` for positive `k`. -/
theorem latestVids_isEmpty_false (k : Nat) (hk : 0 < k) : (latestVids k).isEmpty = false := by
  cases h : latestVids k with
  | nil => exact absurd h (latestVids_ne_nil k hk)
  | cons a as => rfl

/-- A complete `FetchShowLatest` run over the empty-page-terminated provider
with `k` videos, for any limit that the available videos do not exceed
(including the unlimited limit 0): all `k` videos are processed, the real
visitor runs `k` times, and the run ends with a nil error after scraping two
pages. -/
theorem latestEmpty_run (k : Nat) (hk : 0 < k) (maxN : Int)
    (hc : maxN ≤ 0 ∨ (0 : Int) + (latestVids k).length ≤ maxN) :
    FetchShowLatest (latestEnvEmpty k) "telediario-1" maxN countVisitor 0 2 =
      .finished { videosProcessed := k, pagesScraped := 2 } ((k : Int), k) none := by
  have hall := processVideos_wrapped_count_all (latestEnvEmpty k) start2000
    ((latestEnvEmpty k).now + 86400) maxN (latestVids k)
    { videosProcessed := 0, errorCount := 0, errors := [], pagesScraped := 0 + 1 }
    0 0 false true 0 (latestVidsEmpty_nice k) hc
  rw [latestVids_isEmpty_false k hk] at hall
  simp only [Bool.not_false, Bool.or_true, Bool.and_false] at hall
  have hstep1 := fetchStep_next_of (latestEnvEmpty k) start2000 ((latestEnvEmpty k).now + 86400)
    (wrappedVisitor maxN countVisitor)
    { page := 0, foundVideosInRange := false, stats := {}, vs := (0, 0) }
    (latestVids k) _ _ _ rfl (latestVids_ne_nil k hk) hall
    (by simp [latestVids_length]; omega)
  have hstep2 := fetchStep_empty_of (latestEnvEmpty k) start2000 ((latestEnvEmpty k).now + 86400)
    (wrappedVisitor maxN countVisitor)
    { page := 0 + 1, foundVideosInRange := true,
      stats := { videosProcessed := 0 + (latestVids k).length, errorCount := 0, errors := [],
                 pagesScraped := 0 + 1 },
      vs := ((0 : Int) + (latestVids k).length, 0 + (latestVids k).length) }
    rfl
  have hrun : FetchShow (latestEnvEmpty k) "telediario-1" start2000
      ((latestEnvEmpty k).now + 86400) (wrappedVisitor maxN countVisitor) (0, 0) 2 =
      .finished
        { videosProcessed := 0 + (latestVids k).length, errorCount := 0, errors := [],
          pagesScraped := 0 + 1 + 1 }
        ((0 : Int) + (latestVids k).length, 0 + (latestVids k).length) none := by
    rw [FetchShow_run _ _ _ _ _ _ _ (by decide)
      (by exact (by decide : ¬ (1742000000 + 86400 : Int) < 946684800))]
    exact (fetchLoop_next _ _ _ _ 1 _ _ hstep1).trans
      (fetchLoop_done _ _ _ _ 0 _ _ _ _ hstep2)
  refine (FetchShowLatest_none _ _ _ _ _ _ _ _ hrun).trans
    (fetchOutcome_finished_eq ?_ ?_ rfl)
  · exact fetchStats_ext (by simp [latestVids_length]) rfl rfl (by simp)
  · simp [Prod.ext_iff, latestVids_length]


/-- C1 (amended): the wrapped visitor of `FetchShowLatest` short-circuits
with the `ErrMaxVideosReached` sentinel strictly before incrementing its
counter or invoking the real visitor, and the sentinel is converted to
graceful termination.  Whenever strictly more than `N` videos are available
(first conjunct, shown over providers with `k > N` videos), the real visitor
runs exactly `N` times, `VideosProcessed = N` and the error is nil; the same
holds with exactly `N` available when pagination past them ends with an
empty page (second conjunct); with `N = 0` all available videos are
processed (third conjunct).  When exactly `N` are available and pagination
ends with a 404 instead, the wrapped page-fetch error is returned as fatal
(see the counterexample), which is what forces this amendment. -/
theorem c1_latest_amended :
    (∀ k N : Nat, 0 < N → N < k →
      FetchShowLatest (latestEnv404 k) "telediario-1" (N : Int) countVisitor 0 2 =
        .finished { videosProcessed := N, pagesScraped := 1 } ((N : Int), N) none)
    ∧ (∀ N : Nat, 0 < N →
      FetchShowLatest (latestEnvEmpty N) "telediario-1" (N : Int) countVisitor 0 2 =
        .finished { videosProcessed := N, pagesScraped := 2 } ((N : Int), N) none)
    ∧ (∀ k : Nat, 0 < k →
      FetchShowLatest (latestEnvEmpty k) "telediario-1" 0 countVisitor 0 2 =
        .finished { videosProcessed := k, pagesScraped := 2 } ((k : Int), k) none) := by
  refine ⟨?_, ?_, ?_⟩
  · intro k N hN hk
    obtain ⟨vid, hfatal⟩ := processVideos_wrapped_count_limit (latestEnv404 k) start2000
      ((latestEnv404 k).now + 86400) (N : Int) (latestVids k)
      { videosProcessed := 0, errorCount := 0, errors := [], pagesScraped := 0 + 1 }
      0 0 false true 0 (latestVids404_nice k)
      (by exact_mod_cast hN) (Int.natCast_nonneg N)
      (by rw [latestVids_length]; omega)
    have hstep := fetchStep_fatal_of (latestEnv404 k) start2000 ((latestEnv404 k).now + 86400)
      (wrappedVisitor (N : Int) countVisitor)
      { page := 0, foundVideosInRange := false, stats := {}, vs := (0, 0) }
      (latestVids k) _ _ _ rfl (latestVids_ne_nil k (by omega)) hfatal
    have hrun : FetchShow (latestEnv404 k) "telediario-1" start2000
        ((latestEnv404 k).now + 86400) (wrappedVisitor (N : Int) countVisitor) (0, 0) 2 =
        .finished
          { videosProcessed := 0 + ((N : Int) - 0).toNat, errorCount := 0, errors := [],
            pagesScraped := 0 + 1 }
          ((N : Int), 0 + ((N : Int) - 0).toNat)
          (some (.wrap ("visitor function returned error for video " ++ vid)
            .maxVideosReached)) := by
      rw [FetchShow_run _ _ _ _ _ _ _ (by decide)
        (by exact (by decide : ¬ (1742000000 + 86400 : Int) < 946684800))]
      exact fetchLoop_done _ _ _ _ 1 _ _ _ _ hstep
    refine (FetchShowLatest_eq _ _ _ _ _ _ _ _ _ hrun (errorsIs_wrap_sentinel _)).trans
      (fetchOutcome_finished_eq ?_ ?_ rfl)
    · exact fetchStats_ext (by simp) rfl rfl (by simp)
    · simp [Prod.ext_iff]
  · intro N hN
    exact latestEmpty_run N hN (N : Int)
      (Or.inr (by rw [latestVids_length]; omega))
  · intro k hk
    exact latestEmpty_run k hk 0 (Or.inl le_rfl)

/-- Witness for the amended C1: with two available videos and `maxVideos = 1`
the real visitor runs once, one video is processed and the error is nil;
with one available video and an empty-page ending the same holds at the
exact limit; with `maxVideos = 0` all three available videos are
processed. -/
theorem c1_latest_amended_witness :
    (FetchShowLatest (latestEnv404 2) "telediario-1" 1 countVisitor 0 2 =
      .finished { videosProcessed := 1, pagesScraped := 1 } (1, 1) none)
    ∧ (FetchShowLatest (latestEnvEmpty 1) "telediario-1" 1 countVisitor 0 2 =
      .finished { videosProcessed := 1, pagesScraped := 2 } (1, 1) none)
    ∧ (FetchShowLatest (latestEnvEmpty 3) "telediario-1" 0 countVisitor 0 2 =
      .finished { videosProcessed := 3, pagesScraped := 2 } (3, 3) none) :=
  ⟨c1_latest_amended.1 2 1 (by decide) (by decide),
   c1_latest_amended.2.1 1 (by decide),
   c1_latest_amended.2.2 3 (by decide)⟩


/-- C6 (amended): if the visitor returns a non-nil error for an in-range
video, the run stops immediately — the step's outcome is independent of the
remaining videos on the page and no further pages are fetched — and the
terminal error is the visitor's error wrapped as
`"visitor function returned error for video <id>: %w"` (so `errors.Is` still
identifies it, but it is not the identical error value), alongside the
statistics accumulated so far. -/
theorem c6_visitor_error_stops {σ : Type} (env : Env) (sd ed : Int) (vis : Visitor σ)
    (st : LoopState σ) (v : VideoInfo) (m : VideoMetadata) (d : Int) (subs : Subtitles)
    (vs1 : σ) (e : GoErr)
    (hm : env.downloadVideoMeta v.id = Except.ok m)
    (hd : env.parseDate m.publicationDate = Except.ok d)
    (h1 : sd ≤ d) (h2 : d ≤ ed)
    (hs : env.fetchSubtitles m = Except.ok subs)
    (hv : vis st.vs { metadata := m, subtitles := some subs, subtitlesError := none } =
      (vs1, some e)) :
    (∀ rest : List VideoInfo,
      ScrapePage env st.page = Except.ok (v :: rest) →
      fetchStep env sd ed vis st =
        .done { st.stats with pagesScraped := st.stats.pagesScraped + 1 } vs1
          (some (.wrap ("visitor function returned error for video " ++ v.id) e)))
    ∧ (∀ (videos : List VideoInfo) (stats1 : FetchStats) (vs2 : σ) (e2 : GoErr),
        ScrapePage env st.page = Except.ok videos → videos ≠ [] →
        processVideos env sd ed vis videos
            { st.stats with pagesScraped := st.stats.pagesScraped + 1 }
            st.vs st.foundVideosInRange true 0 = .fatal stats1 vs2 e2 →
        fetchStep env sd ed vis st = .done stats1 vs2 (some e2)) := by
  have hn1 : ¬ d < sd := not_lt.mpr h1
  have hn2 : ¬ ed < d := not_lt.mpr h2
  constructor
  · intro rest hpage
    refine fetchStep_fatal_of env sd ed vis st (v :: rest) _ _ _ hpage (by simp) ?_
    simp only [processVideos, hm, hd, hn1, hn2, hs, hv]
    simp
  · intro videos stats1 vs2 e2 hpage hne hfatal
    exact fetchStep_fatal_of env sd ed vis st videos stats1 vs2 e2 hpage hne hfatal

/-- Witness for the amended C6: the aborting visitor on a one-video page
produces the wrapped terminal error with the accumulated statistics. -/
theorem c6_visitor_error_stops_witness :
    fetchStep (latestEnvEmpty 1) 946684800 1742086400 errVisitor
        { page := 0, foundVideosInRange := false, stats := {}, vs := () } =
      .done { pagesScraped := 1 } ()
        (some (.wrap "visitor function returned error for video v0" (.other "boom"))) :=
  ((c6_visitor_error_stops (latestEnvEmpty 1) 946684800 1742086400 errVisitor
      { page := 0, foundVideosInRange := false, stats := {}, vs := () }
      (mkVid 0) (metaFor "v0") 1741986000 { videoID := "v0", items := [] } () (.other "boom")
      rfl rfl (by decide) (by decide) rfl rfl).1) [] rfl

/-- The page loop always yields a statistics object, never a `nil` one. -/
theorem fetchLoop_statsOf_some {σ : Type} (env : Env) (sd ed : Int) (vis : Visitor σ) :
    ∀ (fuel : Nat) (st : LoopState σ),
      ∃ stats, (fetchLoop env sd ed vis fuel st).statsOf = some stats := by
  intro fuel
  induction fuel with
  | zero =>
    intro st
    exact ⟨st.stats, rfl⟩
  | succ n ih =>
    intro st
    cases hstep : fetchStep env sd ed vis st with
    | done stats vs err =>
      exact ⟨stats, by simp [fetchLoop, hstep, FetchOutcome.statsOf]⟩
    | next st1 =>
      obtain ⟨stats, hstats⟩ := ih st1
      exact ⟨stats, by simpa [fetchLoop, hstep] using hstats⟩

/-- C7 (amended): once validation passes (known show, end not before start),
`FetchShow` returns a non-nil statistics object whatever the outcome (first
conjunct), and every page-loop step only ever increases each statistics
counter (second conjunct).  The two validation failures return a `nil`
statistics object (see the counterexample), which is what forces this
amendment. -/
theorem c7_stats_present_and_monotone {σ : Type} (env : Env) (showID : String) (sd ed : Int)
    (vis : Visitor σ) (vs0 : σ) (fuel : Nat)
    (hshow : listShows.contains showID = true) (hdate : ¬ ed < sd) :
    (∃ stats, (FetchShow env showID sd ed vis vs0 fuel).statsOf = some stats)
    ∧ (∀ st : LoopState σ, statsLe st.stats (fetchStep env sd ed vis st).statsOf) := by
  constructor
  · rw [FetchShow_run env showID sd ed vis vs0 fuel hshow hdate]
    exact fetchLoop_statsOf_some env sd ed vis fuel _
  · intro st
    exact fetchStep_statsLe env sd ed vis st

/-- Witness for the amended C7 on a concrete run: the returned statistics
object is not nil and one step's statistics dominate the initial ones. -/
theorem c7_stats_present_and_monotone_witness :
    ((FetchShow (latestEnvEmpty 1) "telediario-1" 946684800 1742086400 unitVisitor () 3).statsOf ≠
      none)
    ∧ statsLe ({} : FetchStats)
        (fetchStep (latestEnvEmpty 1) 946684800 1742086400 unitVisitor
          { page := 0, foundVideosInRange := false, stats := {}, vs := () }).statsOf := by
  have h := c7_stats_present_and_monotone (latestEnvEmpty 1) "telediario-1" 946684800 1742086400
    unitVisitor () 3 (by decide) (by decide)
  refine ⟨?_, h.2 { page := 0, foundVideosInRange := false, stats := {}, vs := () }⟩
  obtain ⟨stats, hstats⟩ := h.1
  simp [hstats]

/-- C8: `VideoMetadata.Parse` fails with a descriptive error on a decode
failure (malformed JSON) and on an empty item list, leaving the receiver
unchanged in both cases; on success the receiver becomes exactly the first
element of the response's item list. -/
theorem c8_parse_failure_and_success (decode : String → Except GoErr VideoResponse)
    (m : VideoMetadata) (body : String) :
    (∀ e, decode body = .error e →
      VideoMetadata.Parse decode m body =
        (m, some (.other ("error unmarshaling JSON: " ++ e.message))))
    ∧ (∀ resp, decode body = .ok resp → resp.page.items = [] →
      VideoMetadata.Parse decode m body = (m, some (.other "no video metadata found")))
    ∧ (∀ resp item0 restItems, decode body = .ok resp → resp.page.items = item0 :: restItems →
      VideoMetadata.Parse decode m body = (item0, none)) := by
  refine ⟨?_, ?_, ?_⟩
  · intro e h
    simp [VideoMetadata.Parse, h]
  · intro resp h hitems
    simp [VideoMetadata.Parse, h, hitems]
  · intro resp item0 restItems h hitems
    simp [VideoMetadata.Parse, h, hitems]

/-- Witness for C8 on the stub decoder: a malformed body and an
empty-item-list body fail with the descriptive errors and an unchanged
receiver; a well-formed body yields the first item. -/
theorem c8_parse_failure_and_success_witness :
    (VideoMetadata.Parse decodeStub {} "bad" =
      ({}, some (.other "error unmarshaling JSON: unexpected end of JSON input")))
    ∧ (VideoMetadata.Parse decodeStub {} "empty" =
      ({}, some (.other "no video metadata found")))
    ∧ (VideoMetadata.Parse decodeStub {} "good" = (metaFor "16492499", none)) := by
  refine ⟨?_, ?_, ?_⟩
  · exact (c8_parse_failure_and_success decodeStub {} "bad").1
      (.other "unexpected end of JSON input") rfl
  · exact (c8_parse_failure_and_success decodeStub {} "empty").2.1 {} rfl rfl
  · exact (c8_parse_failure_and_success decodeStub {} "good").2.2
      { page := { items := [metaFor "16492499"] } } (metaFor "16492499") [] rfl rfl

end RtveGo
